import Mathlib

/-!
Shallow embedding of the `performance_benchmark` repository
(`src/db_manager.py` and `src/main.py`).

The repository benchmarks CRUD operations against a PostgreSQL `users`
table through two connection managers: `NoPoolManager` (fresh connection
per call) and `PoolManager` (a `psycopg2.pool.SimpleConnectionPool`).
The store itself (PostgreSQL) and the psycopg2 pool are external
collaborators of the source; their semantics are embedded here exactly
as the source relies on them:

* the `users` table has a `SERIAL` primary key `id` and `UNIQUE NOT NULL`
  columns `username` and `email` (created in `setup_database`, main.py);
  an `INSERT`/`UPDATE` violating a unique constraint raises, an
  `UPDATE`/`DELETE` whose `WHERE id = %s` matches no row affects zero
  rows and succeeds; the `created_at` column is defaulted by the store
  and is never read back by the benchmark, so it is not modelled;
* `psycopg2.pool.SimpleConnectionPool(minconn, maxconn)` pre-creates
  `minconn` connections, hands out a pooled connection if one is idle,
  otherwise opens a new one while fewer than `maxconn` are checked out,
  and raises `PoolError` when the pool is exhausted or closed; `putconn`
  keeps at most `minconn` idle connections and closes the rest.

Concurrency in `run_crud_tests` (a `ThreadPoolExecutor` with
`num_workers` threads per phase) is embedded by its submission-order
sequential semantics: every submitted task runs to completion, tasks are
executed and their outcomes collected in submission order.
-/

namespace PerfBench

/-- A row of the `users` table: `id SERIAL PRIMARY KEY`,
`username UNIQUE NOT NULL`, `email UNIQUE NOT NULL` (the
`created_at` column is store-defaulted and never read by the code). -/
structure Record where
  id : Nat
  username : String
  email : String
deriving Repr, DecidableEq

/-- Persisted state of the `users` table: its rows and the next value of
the `SERIAL` id sequence. -/
structure UsersTable where
  rows : List Record
  nextId : Nat
deriving Repr, DecidableEq

/-- The only statement-level error the benchmark's statements can raise:
a unique-constraint violation on `username` or `email`
(psycopg2's `UniqueViolation`, the spec's `DuplicateKeyError`). -/
inductive DBError where
  | uniqueViolation
deriving Repr, DecidableEq

/-- `EXISTS (SELECT 1 FROM users WHERE username = u)`. -/
def usernameExists (t : UsersTable) (u : String) : Bool :=
  t.rows.any fun r => r.username == u

/-- `EXISTS (SELECT 1 FROM users WHERE email = e)`. -/
def emailExists (t : UsersTable) (e : String) : Bool :=
  t.rows.any fun r => r.email == e

/-- The table after a successful
`INSERT INTO users (username, email) VALUES (u, e)`:
the new row gets the next serial id. -/
def insertTable (t : UsersTable) (u e : String) : UsersTable :=
  { rows := t.rows ++ [{ id := t.nextId, username := u, email := e }]
    nextId := t.nextId + 1 }

/-- `INSERT INTO users (username, email) VALUES (%s, %s) RETURNING id`:
raises `UniqueViolation` if the username or the email already exists,
otherwise appends the row and returns its generated id. -/
def execInsert (t : UsersTable) (u e : String) :
    Except DBError (UsersTable × Nat) :=
  if usernameExists t u || emailExists t e then
    .error .uniqueViolation
  else
    .ok (insertTable t u e, t.nextId)

/-- `SELECT * FROM users WHERE id = %s` followed by `fetchone()`:
the first matching row, or `none` when no row matches. -/
def execSelect (t : UsersTable) (i : Nat) : Option Record :=
  t.rows.find? fun r => r.id == i

/-- `UPDATE users SET email = %s WHERE id = %s`: when a row with the id
exists and another row already holds the new email, raises
`UniqueViolation`; otherwise rewrites every matching row's email
(zero matching rows is a successful no-op — the code never inspects
the affected row count). -/
def execUpdate (t : UsersTable) (i : Nat) (e : String) :
    Except DBError UsersTable :=
  if t.rows.any fun r => r.id == i then
    if t.rows.any fun r => r.email == e && r.id != i then
      .error .uniqueViolation
    else
      .ok { t with rows := t.rows.map fun r =>
              if r.id == i then { r with email := e } else r }
  else
    .ok t

/-- `DELETE FROM users WHERE id = %s`: removes every matching row;
zero matching rows is a successful no-op (the code never inspects the
affected row count). -/
def execDelete (t : UsersTable) (i : Nat) : UsersTable :=
  { t with rows := t.rows.filter fun r => r.id != i }

/-- Connection-lifecycle events of one `BaseDBManager` operation, in the
order they happen: `get_connection`, `cur.execute`, `conn.commit`,
`conn.rollback`, `close_connection`. -/
inductive Event where
  | acquire
  | execute
  | commit
  | rollback
  | release
deriving Repr, DecidableEq

/-- `BaseDBManager.create_user` (db_manager.py lines 24-36): acquire a
connection, `INSERT ... RETURNING id`, commit and return the new id on
success; on failure roll back and re-raise; the `finally` block releases
the connection on both paths. Returns (result, persisted table, events). -/
def create_user (db : UsersTable) (username email : String) :
    Except DBError Nat × UsersTable × List Event :=
  match execInsert db username email with
  | .ok (db', newId) =>
      (.ok newId, db', [.acquire, .execute, .commit, .release])
  | .error e =>
      (.error e, db, [.acquire, .execute, .rollback, .release])

/-- `BaseDBManager.read_user` (db_manager.py lines 38-45): acquire a
connection, `SELECT ... WHERE id`, return `fetchone()` (no transaction);
the `finally` block releases the connection. -/
def read_user (db : UsersTable) (user_id : Nat) :
    Option Record × UsersTable × List Event :=
  (execSelect db user_id, db, [.acquire, .execute, .release])

/-- `BaseDBManager.update_user` (db_manager.py lines 47-58): acquire a
connection, `UPDATE users SET email WHERE id`, commit on success, roll
back and re-raise on failure; the `finally` block releases the
connection on both paths. -/
def update_user (db : UsersTable) (user_id : Nat) (new_email : String) :
    Except DBError Unit × UsersTable × List Event :=
  match execUpdate db user_id new_email with
  | .ok db' =>
      (.ok (), db', [.acquire, .execute, .commit, .release])
  | .error e =>
      (.error e, db, [.acquire, .execute, .rollback, .release])

/-- `BaseDBManager.delete_user` (db_manager.py lines 60-71): acquire a
connection, `DELETE FROM users WHERE id`, commit; a `DELETE` by id can
raise no constraint violation, so the except/rollback branch of the
source is unreachable; the `finally` block releases the connection. -/
def delete_user (db : UsersTable) (user_id : Nat) :
    Except DBError Unit × UsersTable × List Event :=
  (.ok (), execDelete db user_id, [.acquire, .execute, .commit, .release])

/-- Every row id is below the serial counter — true of every table the
store ever produces. -/
def WF (db : UsersTable) : Bool :=
  db.rows.all fun r => r.id < db.nextId

/-! ### Configuration (db_manager.py lines 9-15, main.py lines 123-124) -/

/-- The dictionary `DB_CONFIG` built from `os.getenv` in db_manager.py:
the connection target only. -/
structure DBConfig where
  dbname : Option String
  user : Option String
  password : Option String
  host : Option String
  port : Option String
deriving Repr, DecidableEq

/-- `DB_CONFIG` as a function of the environment (`os.getenv`). -/
def DB_CONFIG (env : String → Option String) : DBConfig :=
  { dbname := env "DB_NAME"
    user := env "USER_NAME"
    password := env "PASSWORD"
    host := env "HOST"
    port := env "PORT" }

/-- `NUM_DATA_POINTS = 1000` (main.py line 123). -/
def NUM_DATA_POINTS : Nat := 1000

/-- `NUM_WORKERS = 50` (main.py line 124). -/
def NUM_WORKERS : Nat := 50

/-! ### The psycopg2 SimpleConnectionPool behind PoolManager

`PoolManager.__init__` builds `psycopg2.pool.SimpleConnectionPool(1, 50,
**DB_CONFIG)`; `get_connection` is `pool.getconn()`, `close_connection`
is `pool.putconn(conn)`, `close_pool` is `pool.closeall()`. The pool is
embedded as a state machine whose atomic steps are these calls;
connection handles are numbered as they are opened. -/

/-- The errors `psycopg2.pool.PoolError` carries in the paths the
benchmark can reach: the pool is closed, or exhausted. -/
inductive PoolError where
  | poolClosed
  | poolExhausted
deriving Repr, DecidableEq

/-- State of a `SimpleConnectionPool`: its capacity bounds, the idle
free list (`_pool`), how many handles are checked out (`len(_used)`),
the number of physical connections ever opened (to name fresh handles),
the connection parameters it was given, and whether `closeall` ran. -/
structure PoolState where
  minconn : Nat
  maxconn : Nat
  freeList : List Nat
  used : Nat
  nextHandle : Nat
  config : DBConfig
  closed : Bool
deriving Repr, DecidableEq

/-- `SimpleConnectionPool(minconn, maxconn, **kwargs)`: pre-creates
`minconn` idle connections. -/
def simpleConnectionPoolInit (minconn maxconn : Nat) (cfg : DBConfig) :
    PoolState :=
  { minconn := minconn
    maxconn := maxconn
    freeList := List.range minconn
    used := 0
    nextHandle := minconn
    config := cfg
    closed := false }

/-- `PoolManager.__init__` (db_manager.py lines 83-84):
`SimpleConnectionPool(1, 50, **DB_CONFIG)` — the capacity bounds are the
literals 1 and 50. -/
def poolManagerInit (env : String → Option String) : PoolState :=
  simpleConnectionPoolInit 1 50 (DB_CONFIG env)

/-- `getconn()`: raises `PoolError` if the pool is closed; pops an idle
connection if one exists; otherwise opens a new connection unless
`maxconn` handles are already checked out, in which case it raises
`PoolError("connection pool exhausted")` — it never waits. -/
def getconn (s : PoolState) : Except PoolError (Nat × PoolState) :=
  if s.closed then
    .error .poolClosed
  else
    match s.freeList with
    | h :: rest =>
        .ok (h, { s with freeList := rest, used := s.used + 1 })
    | [] =>
        if s.used == s.maxconn then
          .error .poolExhausted
        else
          .ok (s.nextHandle,
               { s with used := s.used + 1, nextHandle := s.nextHandle + 1 })

/-- `putconn(conn)`: hands the connection back; it is kept idle when
fewer than `minconn` connections are idle and closed otherwise. A
`putconn` with nothing checked out raises `KeyError` in psycopg2 and is
modelled as leaving the state unchanged (the benchmark never does it). -/
def putconn (s : PoolState) (h : Nat) : PoolState :=
  if s.used == 0 then s
  else if s.freeList.length < s.minconn then
    { s with freeList := h :: s.freeList, used := s.used - 1 }
  else
    { s with used := s.used - 1 }

/-- `closeall()`: closes every connection and marks the pool closed. -/
def closeall (s : PoolState) : PoolState :=
  { s with freeList := [], closed := true }

/-- An atomic pool call made by a worker: `get_connection` or
`close_connection h`. -/
inductive PoolOp where
  | get
  | put (h : Nat)
deriving Repr, DecidableEq

/-- One atomic pool call; a failed `getconn` raises and leaves the pool
unchanged. -/
def poolStep (s : PoolState) (op : PoolOp) : PoolState :=
  match op with
  | .get =>
      match getconn s with
      | .ok (_, s') => s'
      | .error _ => s
  | .put h => putconn s h

/-- A run of the pooled provider: the pool calls of the workers in the
order the pool (the only shared structure) serialises them. -/
def runPoolOps (s : PoolState) (ops : List PoolOp) : PoolState :=
  ops.foldl poolStep s

/-- `n` consecutive `getconn` calls, stopping at the first error. -/
def acquireN : Nat → PoolState → Except PoolError PoolState
  | 0, s => .ok s
  | n + 1, s =>
      match getconn s with
      | .ok (_, s') => acquireN n s'
      | .error e => .error e

/-! ### run_crud_tests (main.py lines 37-72)

`run_crud_tests` generates `num_data_points` data points (a uuid-based
username and the email `username@test.com` — the uuid draw is external
randomness, so the generated list is a parameter here), then runs four
phases on a `ThreadPoolExecutor(max_workers=num_workers)`:

* CREATE: `futures = [executor.submit(create_user, ...)]` then
  `user_ids = [future.result() for future in futures]` — every task runs
  to completion (the `with` block joins the executor), and the result
  collection re-raises the first failed task's error in submission
  order;
* READ / UPDATE / DELETE: `executor.map(...)` — all tasks run to
  completion when the `with` block exits, but the lazy result iterator
  is never consumed, so a task's exception is never re-raised.

Each phase is embedded by its submission-order sequential semantics:
the task list is executed in submission order against the evolving
table, collecting every task's outcome. -/

/-- A generated data point: `(username, email)`. -/
abbrev DataPoint := String × String

/-- The CREATE phase: every submitted `create_user` task runs,
outcomes collected in submission order. -/
def createPhase (db : UsersTable) (dps : List DataPoint) :
    List (Except DBError Nat) × UsersTable :=
  match dps with
  | [] => ([], db)
  | dp :: rest =>
      let r := create_user db dp.1 dp.2
      let rest' := createPhase r.2.1 rest
      (r.1 :: rest'.1, rest'.2)

/-- The READ phase: `executor.map(read_user, user_ids)`. -/
def readPhase (db : UsersTable) (ids : List Nat) :
    List (Option Record) × UsersTable :=
  match ids with
  | [] => ([], db)
  | i :: rest =>
      let r := read_user db i
      let rest' := readPhase r.2.1 rest
      (r.1 :: rest'.1, rest'.2)

/-- The UPDATE phase: `executor.map(update_user, user_ids, new_emails)`
(stops at the shorter list, as `map` over two iterables does). -/
def updatePhase (db : UsersTable) (ids : List Nat) (emails : List String) :
    List (Except DBError Unit) × UsersTable :=
  match ids, emails with
  | i :: restIds, e :: restEmails =>
      let r := update_user db i e
      let rest' := updatePhase r.2.1 restIds restEmails
      (r.1 :: rest'.1, rest'.2)
  | _, _ => ([], db)

/-- The DELETE phase: `executor.map(delete_user, user_ids)`. -/
def deletePhase (db : UsersTable) (ids : List Nat) :
    List (Except DBError Unit) × UsersTable :=
  match ids with
  | [] => ([], db)
  | i :: rest =>
      let r := delete_user db i
      let rest' := deletePhase r.2.1 rest
      (r.1 :: rest'.1, rest'.2)

/-- `user_ids = [future.result() for future in futures]`: walks the
futures in submission order and re-raises the first error found. -/
def collectResults : List (Except DBError Nat) → Except DBError (List Nat)
  | [] => .ok []
  | .ok i :: rest => (collectResults rest).map fun is => i :: is
  | .error e :: _ => .error e

/-- What `run_crud_tests` can raise: `ThreadPoolExecutor` rejects a
non-positive `max_workers` with `ValueError`; otherwise only the CREATE
phase's result collection can re-raise a task error. -/
inductive RunError where
  | invalidWorkerCount
  | taskError (e : DBError)
deriving Repr, DecidableEq

/-- Everything a completed `run_crud_tests` run produced: the per-task
outcomes of each phase (timings, the dictionary the source returns, are
wall-clock measurements and are not modelled) and the final table. -/
structure RunOutcome where
  createOutcomes : List (Except DBError Nat)
  userIds : List Nat
  readOutcomes : List (Option Record)
  updateOutcomes : List (Except DBError Unit)
  deleteOutcomes : List (Except DBError Unit)
  finalDb : UsersTable
deriving Repr

/-- `run_crud_tests(manager, num_data_points, num_workers)` with the
generated data points as input. The CREATE phase's errors propagate via
`future.result()`; the READ, UPDATE and DELETE phases discard their
`executor.map` iterators, so their tasks' errors are not re-raised. -/
def run_crud_tests (num_workers : Nat) (db : UsersTable)
    (dps : List DataPoint) : Except RunError RunOutcome :=
  if num_workers == 0 then .error .invalidWorkerCount
  else
    let c := createPhase db dps
    match collectResults c.1 with
    | .error e => .error (.taskError e)
    | .ok user_ids =>
        let r := readPhase c.2 user_ids
        let newEmails := dps.map fun dp => "updated_" ++ dp.2
        let upd := updatePhase r.2 user_ids newEmails
        let d := deletePhase upd.2 user_ids
        .ok { createOutcomes := c.1
              userIds := user_ids
              readOutcomes := r.1
              updateOutcomes := upd.1
              deleteOutcomes := d.1
              finalDb := d.2 }

/-! ### Helper lemmas -/

/-- A scoped acquisition in the spec's sense: the event trace of one
operation acquires one connection, executes one statement, releases one
connection, and the release is the last thing that happens. -/
def scopedAcquisition (evs : List Event) : Prop :=
  evs.count .acquire = 1 ∧ evs.count .execute = 1 ∧
  evs.count .release = 1 ∧ evs.getLast? = some .release

theorem rows_fresh_of_WF (db : UsersTable) (h : WF db = true) :
    ∀ r ∈ db.rows, r.id ≠ db.nextId := by
  intro r hr
  have := List.all_eq_true.mp h r hr
  have hlt : r.id < db.nextId := by simpa using this
  omega

theorem find_id_append (rows : List Record) (n : Nat) (r : Record)
    (hr : r.id = n) (h : ∀ s ∈ rows, s.id ≠ n) :
    (rows ++ [r]).find? (fun s => s.id == n) = some r := by
  induction rows with
  | nil => simp [List.find?, hr]
  | cons a t ih =>
      have ha : (a.id == n) = false := by
        simpa using h a (List.mem_cons_self a t)
      have ht : ∀ s ∈ t, s.id ≠ n := fun s hs => h s (List.mem_cons_of_mem a hs)
      simpa [List.find?, ha] using ih ht

theorem map_update_fresh (rows : List Record) (n : Nat) (e2 : String)
    (h : ∀ s ∈ rows, s.id ≠ n) :
    (rows.map fun r => if r.id == n then { r with email := e2 } else r)
      = rows := by
  induction rows with
  | nil => rfl
  | cons a t ih =>
      have ha : (a.id == n) = false := by
        simpa using h a (List.mem_cons_self a t)
      have ht : ∀ s ∈ t, s.id ≠ n := fun s hs => h s (List.mem_cons_of_mem a hs)
      simp only [List.map_cons, ha, Bool.false_eq_true, if_false]
      rw [ih ht]

theorem filter_id_fresh (rows : List Record) (n : Nat)
    (h : ∀ s ∈ rows, s.id ≠ n) :
    rows.filter (fun r => r.id != n) = rows :=
  List.filter_eq_self.mpr (by intro r hr; simpa using h r hr)

theorem find_id_fresh_none (rows : List Record) (n : Nat)
    (h : ∀ s ∈ rows, s.id ≠ n) :
    rows.find? (fun r => r.id == n) = none :=
  List.find?_eq_none.mpr (by intro r hr; simpa using h r hr)

/-! ### Claim theorems -/

/-- C5: every CRUD operation of `BaseDBManager` (`create_user`,
`read_user`, `update_user`, `delete_user`) acquires exactly one
connection, executes exactly one statement, and releases the connection
as its last event on every exit path — also when the statement raises. -/
theorem crud_scoped_acquisition (db : UsersTable) (u e : String)
    (i : Nat) (e2 : String) :
    scopedAcquisition (create_user db u e).2.2
  ∧ scopedAcquisition (read_user db i).2.2
  ∧ scopedAcquisition (update_user db i e2).2.2
  ∧ scopedAcquisition (delete_user db i).2.2 := by
  refine ⟨?_, ?_, ?_, ?_⟩
  · unfold create_user
    cases h : execInsert db u e with
    | ok v => unfold scopedAcquisition; exact ⟨rfl, rfl, rfl, rfl⟩
    | error err => unfold scopedAcquisition; exact ⟨rfl, rfl, rfl, rfl⟩
  · unfold read_user scopedAcquisition; exact ⟨rfl, rfl, rfl, rfl⟩
  · unfold update_user
    cases h : execUpdate db i e2 with
    | ok v => unfold scopedAcquisition; exact ⟨rfl, rfl, rfl, rfl⟩
    | error err => unfold scopedAcquisition; exact ⟨rfl, rfl, rfl, rfl⟩
  · unfold delete_user scopedAcquisition; exact ⟨rfl, rfl, rfl, rfl⟩

/-- C10: `delete_user` on an id absent from the store completes without
raising, leaves the table unchanged, and its trace executes the DELETE
and commits — a silent no-op, with no row-count inspection. -/
theorem delete_user_absent_noop (db : UsersTable) (i : Nat)
    (h : execSelect db i = none) :
    (delete_user db i).1 = .ok ()
  ∧ (delete_user db i).2.1 = db
  ∧ (delete_user db i).2.2 = [.acquire, .execute, .commit, .release] := by
  refine ⟨rfl, ?_, rfl⟩
  have h' : ∀ r ∈ db.rows, r.id ≠ i := by
    intro r hr
    have := List.find?_eq_none.mp h r hr
    simpa using this
  show execDelete db i = db
  unfold execDelete
  rw [filter_id_fresh db.rows i h']

/-- C10 witness: deleting id 5 from a table that only holds id 0. -/
theorem delete_user_absent_noop_witness :
    (delete_user ⟨[⟨0, "u0", "e0"⟩], 1⟩ 5).1 = .ok ()
  ∧ (delete_user ⟨[⟨0, "u0", "e0"⟩], 1⟩ 5).2.1
      = (⟨[⟨0, "u0", "e0"⟩], 1⟩ : UsersTable)
  ∧ (delete_user ⟨[⟨0, "u0", "e0"⟩], 1⟩ 5).2.2
      = [.acquire, .execute, .commit, .release] :=
  delete_user_absent_noop ⟨[⟨0, "u0", "e0"⟩], 1⟩ 5 (by decide)

/-- A two-row table used to exercise `update_user`. -/
def dbUpd : UsersTable :=
  ⟨[⟨0, "u0", "dup@test.com"⟩, ⟨1, "u1", "old@test.com"⟩], 2⟩

/-- C2 counterexample: `update_user` on id 7, absent from `dbUpd`, does
not fail at all — the UPDATE matches zero rows, commits, and returns
normally with the table unchanged, so no `NotFound` is raised. -/
theorem update_user_absent_id_succeeds :
    (update_user dbUpd 7 "fresh@test.com").1 = .ok ()
  ∧ (update_user dbUpd 7 "fresh@test.com").2.1 = dbUpd := ⟨rfl, rfl⟩

/-- C2 (amended): `update_user` on an absent id succeeds as a silent
no-op (commits, table unchanged) instead of failing with `NotFound`;
when the target row exists and another row already holds `new_email` it
fails with a unique-constraint violation and the table is unchanged
(rolled back); when the target row exists and no other row holds
`new_email` it commits, and every row with the target id now carries
`new_email`. -/
theorem update_user_spec (db : UsersTable) (i : Nat) (e2 : String) :
    (execSelect db i = none →
       (update_user db i e2).1 = .ok ()
     ∧ (update_user db i e2).2.1 = db)
  ∧ ((db.rows.any fun r => r.id == i) = true →
     (db.rows.any fun r => r.email == e2 && r.id != i) = true →
       (update_user db i e2).1 = .error .uniqueViolation
     ∧ (update_user db i e2).2.1 = db)
  ∧ ((db.rows.any fun r => r.id == i) = true →
     (db.rows.any fun r => r.email == e2 && r.id != i) = false →
       (update_user db i e2).1 = .ok ()
     ∧ ∀ r ∈ (update_user db i e2).2.1.rows, r.id = i → r.email = e2) := by
  refine ⟨?_, ?_, ?_⟩
  · intro h
    have habs : (db.rows.any fun r => r.id == i) = false := by
      rw [List.any_eq_false]
      intro r hr
      have := List.find?_eq_none.mp h r hr
      simpa using this
    unfold update_user execUpdate
    rw [habs]
    exact ⟨rfl, rfl⟩
  · intro hid hdup
    unfold update_user execUpdate
    rw [hid, hdup]
    exact ⟨rfl, rfl⟩
  · intro hid hdup
    unfold update_user execUpdate
    rw [hid, hdup]
    refine ⟨rfl, ?_⟩
    intro r hr hri
    simp only at hr
    obtain ⟨s, _, hs⟩ := List.mem_map.mp hr
    by_cases hsi : (s.id == i) = true
    · rw [if_pos hsi] at hs
      rw [← hs]
    · rw [if_neg hsi] at hs
      subst hs
      exact absurd (by simpa using hri) hsi

/-- C2 witness (collision branch): updating id 1 of `dbUpd` to the email
already held by id 0 fails with a unique violation and rolls back. -/
theorem update_user_spec_witness :
    (update_user dbUpd 1 "dup@test.com").1 = .error .uniqueViolation
  ∧ (update_user dbUpd 1 "dup@test.com").2.1 = dbUpd :=
  (update_user_spec dbUpd 1 "dup@test.com").2.1 (by decide) (by decide)

/-- C3 counterexample: starting from `PoolManager.__init__`'s pool
(min 1, max 50), 50 `getconn` calls all succeed — every handle is then
checked out at maximum capacity — and the 51st call fails immediately
with `PoolError("connection pool exhausted")` rather than blocking and
being handed a handle. -/
theorem getconn_exhausted_not_blocking :
    (acquireN 50 (poolManagerInit fun _ => some "cfg")).isOk = true
  ∧ acquireN 51 (poolManagerInit fun _ => some "cfg")
      = .error .poolExhausted := ⟨rfl, rfl⟩

/-- C3 (amended): when the pool is not closed, no handle is idle and
`maxconn` handles are checked out, a further `PoolManager.get_connection`
(`getconn`) fails immediately with `PoolError` (pool exhausted) — it
never waits for a handle to be returned. -/
theorem getconn_exhausted_raises (s : PoolState)
    (hclosed : s.closed = false) (hfree : s.freeList = [])
    (hfull : s.used = s.maxconn) :
    getconn s = .error .poolExhausted := by
  unfold getconn
  rw [hclosed, hfree, hfull]
  simp

/-- C3 witness: a concrete exhausted pool. -/
theorem getconn_exhausted_raises_witness :
    getconn { minconn := 1, maxconn := 2, freeList := [], used := 2,
              nextHandle := 2, config := DB_CONFIG fun _ => none,
              closed := false }
      = .error .poolExhausted :=
  getconn_exhausted_raises _ rfl rfl rfl

/-- An environment that sets pool-bound options; `PoolManager` never
reads them. -/
def envPool : String → Option String := fun k =>
  if k == "POOL_MIN" then some "3"
  else if k == "POOL_MAX" then some "7"
  else some "cfg"

/-- C9 counterexample: with an environment whose `POOL_MIN`/`POOL_MAX`
options are 3 and 7, `PoolManager.__init__` still builds the pool with
bounds 1 and 50 — the literals of `SimpleConnectionPool(1, 50, ...)` —
so the bounds are not taken from any configuration option. -/
theorem pool_bounds_ignore_env :
    (poolManagerInit envPool).minconn = 1
  ∧ (poolManagerInit envPool).maxconn = 50 := ⟨rfl, rfl⟩

/-- C9 (amended): only the connection target is configurable (read from
the environment via `DB_CONFIG`); the pool bounds are the fixed
implementation constants 1 and 50, identical under every environment,
and `NUM_DATA_POINTS` and `NUM_WORKERS` are the fixed constants 1000 and
50 in main.py rather than configuration options. -/
theorem pool_bounds_are_constants (env₁ env₂ : String → Option String) :
    (poolManagerInit env₁).minconn = 1
  ∧ (poolManagerInit env₁).maxconn = 50
  ∧ (poolManagerInit env₁).config = DB_CONFIG env₁
  ∧ (poolManagerInit env₁).minconn = (poolManagerInit env₂).minconn
  ∧ (poolManagerInit env₁).maxconn = (poolManagerInit env₂).maxconn
  ∧ NUM_DATA_POINTS = 1000 ∧ NUM_WORKERS = 50 :=
  ⟨rfl, rfl, rfl, rfl, rfl, rfl, rfl⟩

/-- C6: `create_user` fails with a unique-constraint violation and rolls
back (table unchanged) when the username or the email already exists; on
a fresh pair it returns the generated serial id, commits the new row at
the end of the table, and reading that id back yields the new record. -/
theorem create_user_spec (db : UsersTable) (u e : String) :
    ((usernameExists db u || emailExists db e) = true →
       (create_user db u e).1 = .error .uniqueViolation
     ∧ (create_user db u e).2.1 = db)
  ∧ (WF db = true → (usernameExists db u || emailExists db e) = false →
       (create_user db u e).1 = .ok db.nextId
     ∧ (create_user db u e).2.1.rows = db.rows ++ [⟨db.nextId, u, e⟩]
     ∧ execSelect (create_user db u e).2.1 db.nextId
         = some ⟨db.nextId, u, e⟩) := by
  constructor
  · intro hdup
    unfold create_user execInsert
    rw [hdup]
    exact ⟨rfl, rfl⟩
  · intro hwf hfresh
    unfold create_user execInsert
    rw [hfresh]
    refine ⟨rfl, rfl, ?_⟩
    show execSelect (insertTable db u e) db.nextId = _
    unfold execSelect insertTable
    exact find_id_append db.rows db.nextId _ rfl (rows_fresh_of_WF db hwf)

/-- C6 witness: creating a fresh user in a one-row table. -/
theorem create_user_spec_witness :
    (create_user ⟨[⟨0, "u0", "e0"⟩], 1⟩ "u1" "e1").1 = .ok 1
  ∧ (create_user ⟨[⟨0, "u0", "e0"⟩], 1⟩ "u1" "e1").2.1.rows
      = [⟨0, "u0", "e0"⟩] ++ [⟨1, "u1", "e1"⟩]
  ∧ execSelect (create_user ⟨[⟨0, "u0", "e0"⟩], 1⟩ "u1" "e1").2.1 1
      = some ⟨1, "u1", "e1"⟩ :=
  (create_user_spec ⟨[⟨0, "u0", "e0"⟩], 1⟩ "u1" "e1").2 (by decide) (by decide)

theorem getconn_ok_inv (s : PoolState) (hd : Nat) (s' : PoolState)
    (h : s.used + s.freeList.length ≤ s.maxconn)
    (hg : getconn s = .ok (hd, s')) :
    s'.used + s'.freeList.length ≤ s'.maxconn ∧ s'.maxconn = s.maxconn := by
  unfold getconn at hg
  by_cases hc : s.closed = true
  · rw [if_pos hc] at hg
    exact absurd hg (by simp)
  · rw [if_neg hc] at hg
    cases hf : s.freeList with
    | cons a rest =>
        rw [hf] at hg
        rw [Except.ok.injEq, Prod.mk.injEq] at hg
        obtain ⟨h1, h2⟩ := hg
        subst h2
        have hlen : s.freeList.length = rest.length + 1 := by rw [hf]; rfl
        refine ⟨?_, rfl⟩
        show s.used + 1 + rest.length ≤ s.maxconn
        omega
    | nil =>
        rw [hf] at hg
        cases hu : s.used == s.maxconn with
        | true => rw [hu] at hg; exact absurd hg (by simp)
        | false =>
            rw [hu] at hg
            simp only [Bool.false_eq_true, if_false] at hg
            rw [Except.ok.injEq, Prod.mk.injEq] at hg
            obtain ⟨h1, h2⟩ := hg
            subst h2
            have hfl : s.freeList.length = 0 := by rw [hf]; rfl
            have hne : s.used ≠ s.maxconn := by simpa using hu
            refine ⟨?_, rfl⟩
            show s.used + 1 + ([] : List Nat).length ≤ s.maxconn
            simp only [List.length_nil]
            omega

theorem putconn_inv (s : PoolState) (hd : Nat)
    (h : s.used + s.freeList.length ≤ s.maxconn) :
    (putconn s hd).used + (putconn s hd).freeList.length
        ≤ (putconn s hd).maxconn
  ∧ (putconn s hd).maxconn = s.maxconn := by
  unfold putconn
  cases hu : s.used == 0 with
  | true =>
      show s.used + s.freeList.length ≤ s.maxconn ∧ s.maxconn = s.maxconn
      exact ⟨h, rfl⟩
  | false =>
      have hus : s.used ≠ 0 := by simpa using hu
      by_cases hfl : s.freeList.length < s.minconn
      · rw [if_pos hfl]
        show s.used - 1 + (hd :: s.freeList).length ≤ s.maxconn
          ∧ s.maxconn = s.maxconn
        refine ⟨?_, rfl⟩
        simp only [List.length_cons]
        omega
      · rw [if_neg hfl]
        show s.used - 1 + s.freeList.length ≤ s.maxconn
          ∧ s.maxconn = s.maxconn
        refine ⟨?_, rfl⟩
        omega

theorem poolStep_inv (s : PoolState) (op : PoolOp)
    (h : s.used + s.freeList.length ≤ s.maxconn) :
    (poolStep s op).used + (poolStep s op).freeList.length
        ≤ (poolStep s op).maxconn
  ∧ (poolStep s op).maxconn = s.maxconn := by
  cases op with
  | get =>
      cases hg : getconn s with
      | error err => unfold poolStep; rw [hg]; exact ⟨h, rfl⟩
      | ok p =>
          obtain ⟨hd, s'⟩ := p
          unfold poolStep
          rw [hg]
          exact getconn_ok_inv s hd s' h hg
  | put hd =>
      show (putconn s hd).used + (putconn s hd).freeList.length
            ≤ (putconn s hd).maxconn
        ∧ (putconn s hd).maxconn = s.maxconn
      exact putconn_inv s hd h

/-- C4: over any serialised trace of pool calls starting from a state
satisfying the pool's size accounting (checked-out plus idle handles
within `maxconn`, as `PoolManager`'s initial pool does), the number of
checked-out handles never exceeds the maximum capacity; and a `getconn`
on an open pool with fewer than `W ≤ maxconn` handles checked out
succeeds immediately — `getconn` never waits, so with at most `maxconn`
workers no acquire blocks. -/
theorem pool_capacity_invariant (s : PoolState) (ops : List PoolOp)
    (hinv : s.used + s.freeList.length ≤ s.maxconn) :
    (runPoolOps s ops).used ≤ s.maxconn
  ∧ ∀ (t : PoolState) (W : Nat), t.closed = false → t.used < W →
      W ≤ t.maxconn → (getconn t).isOk = true := by
  constructor
  · have main : ∀ (l : List PoolOp) (t : PoolState),
        t.used + t.freeList.length ≤ t.maxconn →
        (runPoolOps t l).used + (runPoolOps t l).freeList.length
            ≤ (runPoolOps t l).maxconn
        ∧ (runPoolOps t l).maxconn = t.maxconn := by
      intro l
      induction l with
      | nil => exact fun t ht => ⟨ht, rfl⟩
      | cons op rest ih =>
          intro t ht
          have h1 := poolStep_inv t op ht
          have h2 := ih (poolStep t op) h1.1
          exact ⟨h2.1, h2.2.trans h1.2⟩
    have h := main ops s hinv
    calc (runPoolOps s ops).used
        ≤ (runPoolOps s ops).used + (runPoolOps s ops).freeList.length :=
          Nat.le_add_right _ _
      _ ≤ (runPoolOps s ops).maxconn := h.1
      _ = s.maxconn := h.2
  · intro t W hc hlt hle
    unfold getconn
    rw [hc]
    cases hf : t.freeList with
    | cons hd rest => rfl
    | nil =>
        have hne : (t.used == t.maxconn) = false := by
          simp only [beq_eq_false_iff_ne, ne_eq]
          omega
        rw [hne]
        rfl

/-- C4 witness: a concrete trace on `PoolManager`'s initial pool. -/
theorem pool_capacity_invariant_witness :
    (runPoolOps (poolManagerInit fun _ => none)
        [.get, .get, .put 1, .get]).used
      ≤ (poolManagerInit fun _ => none).maxconn :=
  (pool_capacity_invariant (poolManagerInit fun _ => none)
      [.get, .get, .put 1, .get] (by decide)).1

/-- C7: on a well-formed table, for a fresh username and email the id
returned by `create_user` reads back as a record carrying exactly that
username and email; after `update_user` to a non-colliding `e2` the read
reflects `e2` and no longer the prior email; and after `delete_user` a
read of the id yields no row (`NotFound`). -/
theorem crud_round_trip (db : UsersTable) (u e e2 : String)
    (hwf : WF db = true)
    (hu : usernameExists db u = false) (he : emailExists db e = false)
    (he2 : emailExists db e2 = false) (hne : e2 ≠ e) :
    ∃ i, (create_user db u e).1 = .ok i
  ∧ (read_user (create_user db u e).2.1 i).1 = some ⟨i, u, e⟩
  ∧ (read_user (update_user (create_user db u e).2.1 i e2).2.1 i).1
      = some ⟨i, u, e2⟩
  ∧ (⟨i, u, e2⟩ : Record).email ≠ e
  ∧ (read_user (delete_user
        (update_user (create_user db u e).2.1 i e2).2.1 i).2.1 i).1
      = none := by
  have hfr := rows_fresh_of_WF db hwf
  have hfresh : (usernameExists db u || emailExists db e) = false := by
    rw [hu, he]
    rfl
  have hc : create_user db u e
      = (.ok db.nextId, insertTable db u e,
         [.acquire, .execute, .commit, .release]) := by
    unfold create_user execInsert
    rw [hfresh]
    rfl
  have hrows1 : (insertTable db u e).rows
      = db.rows ++ [⟨db.nextId, u, e⟩] := rfl
  have hread1 : execSelect (insertTable db u e) db.nextId
      = some ⟨db.nextId, u, e⟩ :=
    find_id_append db.rows db.nextId ⟨db.nextId, u, e⟩ rfl hfr
  have hemail2 : ∀ r ∈ db.rows, (r.email == e2) = false := by
    intro r hr
    have := List.any_eq_false.mp he2 r hr
    simpa using this
  have hany1 : ((insertTable db u e).rows.any fun r => r.id == db.nextId)
      = true := by
    rw [hrows1, List.any_append]
    simp
  have hnocol : ((insertTable db u e).rows.any
      fun r => r.email == e2 && r.id != db.nextId) = false := by
    rw [hrows1, List.any_append]
    have h1 : (db.rows.any fun r => r.email == e2 && r.id != db.nextId)
        = false := by
      rw [List.any_eq_false]
      intro r hr
      simp [hemail2 r hr]
    rw [h1]
    simp
  have hupd : execUpdate (insertTable db u e) db.nextId e2
      = .ok { rows := db.rows ++ [⟨db.nextId, u, e2⟩],
              nextId := db.nextId + 1 } := by
    unfold execUpdate
    rw [hany1, hnocol]
    show Except.ok ({ insertTable db u e with
        rows := (insertTable db u e).rows.map fun r =>
          if r.id == db.nextId then { r with email := e2 } else r }
        : UsersTable)
      = Except.ok ({ rows := db.rows ++ [⟨db.nextId, u, e2⟩],
                     nextId := db.nextId + 1 } : UsersTable)
    rw [hrows1, List.map_append,
        map_update_fresh db.rows db.nextId e2 hfr]
    simp [insertTable]
  have hupd_state : (update_user (insertTable db u e) db.nextId e2).2.1
      = ({ rows := db.rows ++ [⟨db.nextId, u, e2⟩],
           nextId := db.nextId + 1 } : UsersTable) := by
    unfold update_user
    rw [hupd]
  have hread2 : execSelect
      ({ rows := db.rows ++ [⟨db.nextId, u, e2⟩],
         nextId := db.nextId + 1 } : UsersTable) db.nextId
      = some ⟨db.nextId, u, e2⟩ :=
    find_id_append db.rows db.nextId ⟨db.nextId, u, e2⟩ rfl hfr
  have hdel : execDelete
      ({ rows := db.rows ++ [⟨db.nextId, u, e2⟩],
         nextId := db.nextId + 1 } : UsersTable) db.nextId
      = { rows := db.rows, nextId := db.nextId + 1 } := by
    unfold execDelete
    show ({ rows := (db.rows ++ [(⟨db.nextId, u, e2⟩ : Record)]).filter
              fun r => r.id != db.nextId,
            nextId := db.nextId + 1 } : UsersTable) = _
    rw [List.filter_append, filter_id_fresh db.rows db.nextId hfr]
    simp
  have hread3 : execSelect
      ({ rows := db.rows, nextId := db.nextId + 1 } : UsersTable)
      db.nextId = none :=
    find_id_fresh_none db.rows db.nextId hfr
  refine ⟨db.nextId, ?_, ?_, ?_, ?_, ?_⟩
  · rw [hc]
  · rw [hc]
    exact hread1
  · rw [hc]
    show (read_user (update_user (insertTable db u e) db.nextId e2).2.1
            db.nextId).1 = _
    rw [hupd_state]
    exact hread2
  · exact hne
  · rw [hc]
    show (read_user (delete_user
            (update_user (insertTable db u e) db.nextId e2).2.1
            db.nextId).2.1 db.nextId).1 = none
    rw [hupd_state]
    show execSelect (execDelete
        ({ rows := db.rows ++ [⟨db.nextId, u, e2⟩],
           nextId := db.nextId + 1 } : UsersTable) db.nextId) db.nextId
      = none
    rw [hdel]
    exact hread3

/-- C7 witness: the round trip on a concrete one-row table. -/
theorem crud_round_trip_witness :
    ∃ i, (create_user ⟨[⟨0, "u0", "e0"⟩], 1⟩ "u1" "e1").1 = .ok i
  ∧ (read_user (create_user ⟨[⟨0, "u0", "e0"⟩], 1⟩ "u1" "e1").2.1 i).1
      = some ⟨i, "u1", "e1"⟩
  ∧ (read_user (update_user
        (create_user ⟨[⟨0, "u0", "e0"⟩], 1⟩ "u1" "e1").2.1 i "e2").2.1
        i).1 = some ⟨i, "u1", "e2"⟩
  ∧ (⟨i, "u1", "e2"⟩ : Record).email ≠ "e1"
  ∧ (read_user (delete_user (update_user
        (create_user ⟨[⟨0, "u0", "e0"⟩], 1⟩ "u1" "e1").2.1 i "e2").2.1
        i).2.1 i).1 = none :=
  crud_round_trip ⟨[⟨0, "u0", "e0"⟩], 1⟩ "u1" "e1" "e2"
    (by decide) (by decide) (by decide) (by decide) (by decide)

theorem usernameExists_insertTable (db : UsersTable) (u e x : String) :
    usernameExists (insertTable db u e) x
      = (usernameExists db x || (u == x)) := by
  simp [usernameExists, insertTable, List.any_append]

theorem emailExists_insertTable (db : UsersTable) (u e x : String) :
    emailExists (insertTable db u e) x
      = (emailExists db x || (e == x)) := by
  simp [emailExists, insertTable, List.any_append]

theorem createPhase_ok (dps : List DataPoint) : ∀ (db : UsersTable),
    (∀ dp ∈ dps, usernameExists db dp.1 = false) →
    (∀ dp ∈ dps, emailExists db dp.2 = false) →
    (dps.map Prod.fst).Nodup →
    (dps.map Prod.snd).Nodup →
    (createPhase db dps).1
        = (List.range' db.nextId dps.length).map Except.ok
    ∧ (createPhase db dps).2.nextId = db.nextId + dps.length := by
  induction dps with
  | nil => exact fun db _ _ _ _ => ⟨rfl, rfl⟩
  | cons dp rest ih =>
      intro db hfu hfe hnu hne
      have hu0 : usernameExists db dp.1 = false :=
        hfu dp (List.mem_cons_self dp rest)
      have he0 : emailExists db dp.2 = false :=
        hfe dp (List.mem_cons_self dp rest)
      have hfresh : (usernameExists db dp.1 || emailExists db dp.2)
          = false := by rw [hu0, he0]; rfl
      have hc : create_user db dp.1 dp.2
          = (.ok db.nextId, insertTable db dp.1 dp.2,
             [.acquire, .execute, .commit, .release]) := by
        unfold create_user execInsert
        rw [hfresh]
        rfl
      have hres : (create_user db dp.1 dp.2).1 = .ok db.nextId := by
        rw [hc]
      have hstate : (create_user db dp.1 dp.2).2.1
          = insertTable db dp.1 dp.2 := by rw [hc]
      have hfu' : ∀ q ∈ rest,
          usernameExists (insertTable db dp.1 dp.2) q.1 = false := by
        intro q hq
        rw [usernameExists_insertTable,
            hfu q (List.mem_cons_of_mem dp hq)]
        have hne1 : dp.1 ≠ q.1 := by
          intro hcontra
          exact (List.nodup_cons.mp hnu).1
            (hcontra ▸ List.mem_map_of_mem Prod.fst hq)
        simp [hne1]
      have hfe' : ∀ q ∈ rest,
          emailExists (insertTable db dp.1 dp.2) q.2 = false := by
        intro q hq
        rw [emailExists_insertTable,
            hfe q (List.mem_cons_of_mem dp hq)]
        have hne2 : dp.2 ≠ q.2 := by
          intro hcontra
          exact (List.nodup_cons.mp hne).1
            (hcontra ▸ List.mem_map_of_mem Prod.snd hq)
        simp [hne2]
      have ihr := ih (insertTable db dp.1 dp.2) hfu' hfe'
        (by simpa using (List.nodup_cons.mp hnu).2)
        (by simpa using (List.nodup_cons.mp hne).2)
      constructor
      · show (create_user db dp.1 dp.2).1
            :: (createPhase (create_user db dp.1 dp.2).2.1 rest).1
            = (List.range' db.nextId (dp :: rest).length).map Except.ok
        rw [hres, hstate, ihr.1, List.length_cons, List.range'_succ,
            List.map_cons]
        rfl
      · show (createPhase (create_user db dp.1 dp.2).2.1 rest).2.nextId
            = db.nextId + (dp :: rest).length
        rw [hstate, ihr.2]
        show db.nextId + 1 + rest.length = db.nextId + (rest.length + 1)
        omega

theorem readPhase_length (ids : List Nat) :
    ∀ db : UsersTable, (readPhase db ids).1.length = ids.length := by
  induction ids with
  | nil => exact fun _ => rfl
  | cons i rest ih =>
      intro db
      show (readPhase (read_user db i).2.1 rest).1.length + 1
          = rest.length + 1
      rw [ih]

theorem deletePhase_length (ids : List Nat) :
    ∀ db : UsersTable, (deletePhase db ids).1.length = ids.length := by
  induction ids with
  | nil => exact fun _ => rfl
  | cons i rest ih =>
      intro db
      show (deletePhase (delete_user db i).2.1 rest).1.length + 1
          = rest.length + 1
      rw [ih]

theorem updatePhase_length (ids : List Nat) :
    ∀ (emails : List String) (db : UsersTable),
      ids.length = emails.length →
      (updatePhase db ids emails).1.length = ids.length := by
  induction ids with
  | nil => exact fun _ _ _ => rfl
  | cons i rest ih =>
      intro emails db h
      cases emails with
      | nil => simp at h
      | cons e remails =>
          show (updatePhase (update_user db i e).2.1 rest remails).1.length
              + 1 = rest.length + 1
          rw [ih remails _ (by simpa using h)]

theorem collectResults_map_ok (l : List Nat) :
    collectResults (l.map Except.ok) = .ok l := by
  induction l with
  | nil => rfl
  | cons i rest ih =>
      show (collectResults (rest.map Except.ok)).map (fun is => i :: is)
          = .ok (i :: rest)
      rw [ih]
      rfl

/-- C8: with a valid worker count, pairwise-distinct generated usernames
and emails that are fresh for the starting table (the uuid-uniqueness
assumption of the generator), `run_crud_tests` completes, submits
exactly `N = dps.length` tasks in each of the four phases (each phase
collects one outcome per task), and the create phase collects exactly
the `N` consecutive serial ids in submission order, with no duplicate
among them. The worker count W only sizes the thread pool; it does not
change what is submitted. -/
theorem run_crud_tests_counts (num_workers : Nat) (db : UsersTable)
    (dps : List DataPoint)
    (hW : num_workers ≠ 0)
    (hnu : (dps.map Prod.fst).Nodup)
    (hne : (dps.map Prod.snd).Nodup)
    (hfu : ∀ dp ∈ dps, usernameExists db dp.1 = false)
    (hfe : ∀ dp ∈ dps, emailExists db dp.2 = false) :
    ∃ out, run_crud_tests num_workers db dps = .ok out
    ∧ out.createOutcomes.length = dps.length
    ∧ out.userIds = List.range' db.nextId dps.length
    ∧ out.userIds.length = dps.length
    ∧ out.userIds.Nodup
    ∧ out.readOutcomes.length = dps.length
    ∧ out.updateOutcomes.length = dps.length
    ∧ out.deleteOutcomes.length = dps.length := by
  have hcp := createPhase_ok dps db hfu hfe hnu hne
  have hW' : (num_workers == 0) = false := by simpa using hW
  have hcollect : collectResults (createPhase db dps).1
      = .ok (List.range' db.nextId dps.length) := by
    rw [hcp.1, collectResults_map_ok]
  refine ⟨{ createOutcomes := (createPhase db dps).1
            userIds := List.range' db.nextId dps.length
            readOutcomes := (readPhase (createPhase db dps).2
              (List.range' db.nextId dps.length)).1
            updateOutcomes := (updatePhase
              (readPhase (createPhase db dps).2
                (List.range' db.nextId dps.length)).2
              (List.range' db.nextId dps.length)
              (dps.map fun dp => "updated_" ++ dp.2)).1
            deleteOutcomes := (deletePhase (updatePhase
              (readPhase (createPhase db dps).2
                (List.range' db.nextId dps.length)).2
              (List.range' db.nextId dps.length)
              (dps.map fun dp => "updated_" ++ dp.2)).2
              (List.range' db.nextId dps.length)).1
            finalDb := (deletePhase (updatePhase
              (readPhase (createPhase db dps).2
                (List.range' db.nextId dps.length)).2
              (List.range' db.nextId dps.length)
              (dps.map fun dp => "updated_" ++ dp.2)).2
              (List.range' db.nextId dps.length)).2 },
    ?_, ?_, rfl, ?_, ?_, ?_, ?_, ?_⟩
  · show run_crud_tests num_workers db dps = .ok _
    simp only [run_crud_tests, hW', Bool.false_eq_true, if_false]
    rw [hcollect]
  · show (createPhase db dps).1.length = dps.length
    rw [hcp.1]
    simp
  · show (List.range' db.nextId dps.length).length = dps.length
    simp
  · exact List.nodup_range' db.nextId dps.length 1 (by norm_num)
  · show (readPhase (createPhase db dps).2
        (List.range' db.nextId dps.length)).1.length = dps.length
    rw [readPhase_length]
    simp
  · show (updatePhase _ (List.range' db.nextId dps.length)
        (dps.map fun dp => "updated_" ++ dp.2)).1.length = dps.length
    rw [updatePhase_length _ _ _ (by simp)]
    simp
  · show (deletePhase _ (List.range' db.nextId dps.length)).1.length
        = dps.length
    rw [deletePhase_length]
    simp

/-- C8 witness: a two-point run on an empty table with five workers. -/
theorem run_crud_tests_counts_witness :
    ∃ out, run_crud_tests 5 ⟨[], 0⟩
        [("user_a", "a@test.com"), ("user_b", "b@test.com")] = .ok out
    ∧ out.createOutcomes.length = 2
    ∧ out.userIds = List.range' 0 2
    ∧ out.userIds.length = 2
    ∧ out.userIds.Nodup
    ∧ out.readOutcomes.length = 2
    ∧ out.updateOutcomes.length = 2
    ∧ out.deleteOutcomes.length = 2 :=
  run_crud_tests_counts 5 ⟨[], 0⟩
    [("user_a", "a@test.com"), ("user_b", "b@test.com")]
    (by decide) (by decide) (by decide)
    (by intro dp h; fin_cases h <;> decide)
    (by intro dp h; fin_cases h <;> decide)

theorem except_map_isOk (f : List Nat → List Nat)
    (x : Except DBError (List Nat)) : (x.map f).isOk = x.isOk := by
  cases x <;> rfl

theorem collectResults_isOk (l : List (Except DBError Nat)) :
    (collectResults l).isOk = true ↔ ∀ r ∈ l, r.isOk = true := by
  induction l with
  | nil =>
      constructor
      · intro _ r hr
        exact absurd hr (List.not_mem_nil r)
      · intro _
        rfl
  | cons r rest ih =>
      cases r with
      | ok i =>
          show ((collectResults rest).map fun is => i :: is).isOk = true ↔ _
          rw [except_map_isOk, ih]
          constructor
          · intro h r hr
            rcases List.mem_cons.mp hr with h1 | h1
            · rw [h1]
              rfl
            · exact h r h1
          · intro h r hr
            exact h r (List.mem_cons_of_mem _ hr)
      | error e =>
          show (Except.error e : Except DBError (List Nat)).isOk = true ↔ _
          simp [Except.isOk, Except.toBool]

/-- C1 (amended): the benchmark runner propagates task errors of the
create phase only — after every create task has run, collecting the
results re-raises the first error in submission order, and
`run_crud_tests` fails exactly when some create task failed. Task errors
in the read, update and delete phases never affect the runner's result:
their `executor.map` iterators are never consumed, so those errors are
silently discarded rather than raised as a phase-level failure. -/
theorem runner_error_propagation (num_workers : Nat) (db : UsersTable)
    (dps : List DataPoint) (hW : num_workers ≠ 0) :
    (∀ e, run_crud_tests num_workers db dps = .error (.taskError e)
        ↔ collectResults (createPhase db dps).1 = .error e)
  ∧ ((run_crud_tests num_workers db dps).isOk = true
        ↔ ∀ r ∈ (createPhase db dps).1, r.isOk = true) := by
  have hW' : (num_workers == 0) = false := by simpa using hW
  cases hcol : collectResults (createPhase db dps).1 with
  | error e0 =>
      have hrun : run_crud_tests num_workers db dps
          = .error (.taskError e0) := by
        simp only [run_crud_tests, hW', Bool.false_eq_true, if_false]
        rw [hcol]
      constructor
      · intro e
        rw [hrun]
        simp
      · rw [hrun, ← collectResults_isOk, hcol]
        exact Iff.rfl
  | ok l =>
      have hrun : (run_crud_tests num_workers db dps).isOk = true := by
        simp only [run_crud_tests, hW', Bool.false_eq_true, if_false]
        rw [hcol]
        rfl
      have hall : ∀ r ∈ (createPhase db dps).1, r.isOk = true := by
        have h2 := collectResults_isOk (createPhase db dps).1
        rw [hcol] at h2
        exact h2.mp rfl
      constructor
      · intro e
        constructor
        · intro h
          rw [h] at hrun
          simp [Except.isOk, Except.toBool] at hrun
        · intro h
          exact absurd h (by simp)
      · rw [hrun]
        exact ⟨fun _ => hall, fun _ => rfl⟩

/-- C1 witness: on an empty table with one data point every create task
succeeds, so the run completes. -/
theorem runner_error_propagation_witness :
    (run_crud_tests 5 ⟨[], 0⟩ [("user_a", "a@test.com")]).isOk = true :=
  (runner_error_propagation 5 ⟨[], 0⟩ [("user_a", "a@test.com")]
    (by decide)).2.mpr (by decide)

/-- A table pre-seeded with a row whose email collides with the update
phase's generated email for the data point below. -/
def dbSeed : UsersTable := ⟨[⟨0, "other", "updated_a@test.com"⟩], 1⟩

/-- The single generated data point of the colliding run. -/
def dpsSeed : List DataPoint := [("user_a", "a@test.com")]

/-- C1 counterexample: in this run the update phase's only task raises a
unique-constraint violation (its target email is already taken by the
pre-seeded row), yet `run_crud_tests` completes and returns its results
— the error is silently swallowed instead of being propagated as a
phase-level failure. -/
theorem runner_swallows_update_error :
    (run_crud_tests 5 dbSeed dpsSeed).isOk = true
  ∧ ∃ out, run_crud_tests 5 dbSeed dpsSeed = .ok out
      ∧ out.updateOutcomes = [.error .uniqueViolation] :=
  ⟨rfl, ⟨_, rfl, rfl⟩⟩

end PerfBench
